import Mathlib

/-!
# Verification of the dashboard instance lifecycle and registry subsystem

Shallow embedding of `src/core_server.py`: a Flask service that provisions
per-user, per-dashboard worker containers.  The global mutable state of the
program is

  * `dashboard_containers` — a Python dict mapping the string key
    `f"{user_id}:{dashboard_id}"` to a record
    `{"port": .., "container": .., "user_id": .., "dashboard_id": ..}`;
  * the file system (config files under `/app/configs/`, the shared
    secrets file `/app/env/extra.env`).

Python dicts are embedded as insertion-ordered association lists with the
dict operations (`get`/`in`, assignment, `pop`) modelled explicitly.  The
external collaborators are oracles supplied per call:

  * `osBusy : Nat → Bool` — the outcome of the OS-level port probe
    `is_port_in_use` for each port;
  * `oldStopOk : Bool` — whether stopping/removing the *old* container
    during a create-as-replace succeeds (the code catches and logs a
    failure, so this never influences control flow);
  * `startOk : Bool` — whether `client.containers.run` succeeds;
  * `stopOk : Bool` — whether `container.stop()` / `container.remove()`
    during `remove_dashboard` succeed.

Docker container objects are opaque handles, embedded as a counter `Nat`.
The file system is a flat map from absolute path to file content; the
directory corner cases of the source (`rmtree` of a directory squatting on
the config path) do not arise in a flat model and are noted where skipped.
-/

namespace CoreServer

/-- A registry record: the embedding of one value of `dashboard_containers`
(`{"port": .., "container": .., "user_id": .., "dashboard_id": ..}`).
`handle` stands for the opaque docker container object.
`backendConfirmed` is a ghost flag recording the outcome of the
`client.containers.run` call at the moment the record was committed; the
source commits the record only on the success path, which the invariance of
this flag makes provable. -/
structure Record where
  port : Nat
  userId : String
  dashboardId : String
  handle : Nat
  backendConfirmed : Bool
  deriving Repr, DecidableEq

/-- Python dict lookup `d.get(k)` / `k in d`, on an insertion-ordered
association list. -/
def pyDictGet {β : Type} (d : List (String × β)) (k : String) : Option β :=
  (d.find? (fun kv => kv.1 == k)).map (·.2)

/-- Python dict removal `d.pop(k)` (all bindings of `k`; a Python dict holds
at most one). -/
def pyDictErase {β : Type} (d : List (String × β)) (k : String) :
    List (String × β) :=
  d.filter (fun kv => decide (kv.1 ≠ k))

/-- Python dict assignment `d[k] = v`: update in place if the key is
present, else append at the end (insertion order). -/
def pyDictSet {β : Type} : List (String × β) → String → β → List (String × β)
  | [], k, v => [(k, v)]
  | kv :: rest, k, v =>
      if kv.1 = k then (k, v) :: rest else kv :: pyDictSet rest k v

/-- The whole mutable state of the server process. -/
structure Sys where
  reg : List (String × Record)
  fs : List (String × String)
  nextHandle : Nat
  deriving Repr, DecidableEq

/-- The initial state: empty `dashboard_containers`, empty file system. -/
def initSys : Sys := { reg := [], fs := [], nextHandle := 0 }

/-- `dashboard_key = f"{user_id}:{dashboard_id}"` (lines 53 and 164). -/
def mkKey (u d : String) : String := u ++ ":" ++ d

/-- The ports held by current registry entries
(`[info['port'] for info in dashboard_containers.values()]`, line 37). -/
def usedPorts (reg : List (String × Record)) : List Nat :=
  reg.map (fun kv => kv.2.port)

/-- `get_free_port` (lines 32-40): scan 8051..8100 in ascending order, skip
a port the OS probe reports busy or that a registry entry holds, return the
first eligible one; `none` embeds the `No free ports available` exception. -/
def getFreePort (osBusy : Nat → Bool) (reg : List (String × Record)) :
    Option Nat :=
  (List.range' 8051 50).find?
    (fun p => !osBusy p && !(decide (p ∈ usedPorts reg)))

/-- File-system read: content of the file at `path`, if present. -/
def fsGet (fs : List (String × String)) (path : String) : Option String :=
  (fs.find? (fun kv => kv.1 == path)).map (·.2)

/-- File-system write (`open(path, "w")` + write): create or overwrite. -/
def fsWrite (fs : List (String × String)) (path content : String) :
    List (String × String) :=
  pyDictSet fs path content

/-- File-system delete (`os.remove`, guarded by `os.path.exists`). -/
def fsErase (fs : List (String × String)) (path : String) :
    List (String × String) :=
  pyDictErase fs path

/-- `os.path.basename`: the part after the last `/`. -/
def basename (p : String) : String :=
  ((p.splitOn "/").getLast?).getD ""

/-- The config directory. The source writes configs to
`CONTAINER_CONFIGS_DIR = "/app/configs"` and deletes them under
`HOST_CONFIGS_DIR`, which defaults to the same `"/app/configs"`; the model
uses the default. -/
def configsDir : String := "/app/configs/"

/-- Path of the per-instance config file:
`os.path.join(CONTAINER_CONFIGS_DIR, f"{dashboard_key.replace(':', '_')}.json")`
(lines 90-91, 176). -/
def configPath (key : String) : String :=
  configsDir ++ (key.replace ":" "_") ++ ".json"

/-- Path of the shared secrets file
`os.path.join(CONTAINER_ENV_DIR, "extra.env")` (line 109). -/
def envPath : String := "/app/env/extra.env"

/-- The placeholder written into a freshly created secrets file (line 113). -/
def secretsPlaceholder : String := "OPENAI_API_KEY=your_api_key_here\n"

/-- The serialized config payload (lines 67-72 and 84): fields
`dashboard_id`, `user_id`, `description`, `csv_path`, where a supplied host
CSV path is rewritten to `/data/csvs/<basename>`.  JSON syntax is abstracted
to a field-by-field concatenation; no claim inspects the encoding. -/
def configContent (u d desc : String) (csv : Option String) : String :=
  "dashboard_id=" ++ d ++ ";user_id=" ++ u ++ ";description=" ++ desc ++
    ";csv_path=" ++
      (match csv with
       | none => "null"
       | some p => "/data/csvs/" ++ basename p)

/-- The file-system effect of the provisioning part of `create_dashboard`
(lines 90-113): write (or overwrite) the per-instance config file, then
create the shared secrets file with the placeholder only if it is absent. -/
def createFs (s : Sys) (u d desc : String) (csv : Option String) :
    List (String × String) :=
  let fs1 := fsWrite s.fs (configPath (mkKey u d)) (configContent u d desc csv)
  if (fsGet fs1 envPath).isSome then fs1
  else fsWrite fs1 envPath secretsPlaceholder

/-- Result of `create_dashboard`, by HTTP response:
400 (missing field), the 500 raised by `get_free_port`, the 500 from a
failed `client.containers.run`, or the 200 success carrying the chosen port
and the dashboard key. -/
inductive CreateOutcome where
  | validationError
  | noFreePorts
  | backendError
  | created (port : Nat) (key : String)
  deriving Repr, DecidableEq

/-- `create_dashboard` (lines 42-154).  Control flow of the source:
1. 400 if any of `dashboard_id`, `user_id`, `description` is falsy
   (absent fields are embedded as `""`);
2. if the key is present, `pop` it and best-effort stop/remove the old
   container — the `except` clause only logs, so `oldStopOk` changes
   nothing (lines 56-62);
3. write the config file (lines 90-95; the `rmtree`-a-directory and
   `isfile` re-check corner cases do not arise in the flat fs model);
4. create the secrets file with the placeholder only if absent
   (lines 109-113);
5. `get_free_port` (line 115) — on exhaustion the exception propagates to
   the 500 handler with the fs changes kept and no registry write;
6. `client.containers.run` (line 132) — on failure, 500, fs changes kept,
   no registry write;
7. on success commit the record under the key (lines 139-144) and
   return 200. -/
def create (osBusy : Nat → Bool) (oldStopOk startOk : Bool) (s : Sys)
    (u d desc : String) (csv : Option String) : CreateOutcome × Sys :=
  if u = "" ∨ d = "" ∨ desc = "" then (.validationError, s)
  else
    let key := mkKey u d
    let reg1 := pyDictErase s.reg key
    let fs2 := createFs s u d desc csv
    match getFreePort osBusy reg1 with
    | none => (.noFreePorts, { s with reg := reg1, fs := fs2 })
    | some p =>
        if startOk then
          let r : Record :=
            { port := p, userId := u, dashboardId := d,
              handle := s.nextHandle, backendConfirmed := startOk }
          (.created p key,
            { reg := pyDictSet reg1 key r, fs := fs2,
              nextHandle := s.nextHandle + 1 })
        else (.backendError, { s with reg := reg1, fs := fs2 })

/-- Result of `remove_dashboard`, by HTTP response: 400, 404,
the 500 `Failed to stop container`, or the 200 success. -/
inductive RemoveOutcome where
  | validationError
  | notFound
  | backendError
  | removed
  deriving Repr, DecidableEq

/-- `remove_dashboard` (lines 156-180).  Control flow of the source:
1. 400 if `dashboard_id` or `user_id` is falsy;
2. 404 if the key is absent;
3. `pop` the entry (line 168) — note this happens BEFORE the backend call;
4. stop and remove the container (lines 170-171) — on failure return the
   500 with the entry already popped;
5. on success delete the host-side config file and return 200. -/
def remove (stopOk : Bool) (s : Sys) (u d : String) : RemoveOutcome × Sys :=
  if u = "" ∨ d = "" then (.validationError, s)
  else
    let key := mkKey u d
    match pyDictGet s.reg key with
    | none => (.notFound, s)
    | some _ =>
        let s1 := { s with reg := pyDictErase s.reg key }
        if stopOk then
          (.removed, { s1 with fs := fsErase s1.fs (configPath key) })
        else (.backendError, s1)

/-- Python `key.split(":")`, embedded on the character list. -/
def splitColon : List Char → List (List Char)
  | [] => [[]]
  | c :: rest =>
      if c = ':' then [] :: splitColon rest
      else
        match splitColon rest with
        | s :: ss => (c :: s) :: ss
        | [] => [[c]]

/-- `key.split(":")[1]` (line 190).  Every key in a reachable registry has
the form `u ++ ":" ++ d`, so index 1 exists; the default covers the
unreachable `IndexError`. -/
def seg1 (key : String) : String :=
  String.mk (((splitColon key.data).get? 1).getD [])

/-- `list_dashboards` (lines 182-194): the dict comprehension
`{key.split(":")[1]: info['port'] for key, info in dashboard_containers.items()
if info['user_id'] == user_id}` — iterate the dict in insertion order,
keep entries of the given user, and build a dict keyed by the second
colon-segment of the key (later duplicates overwrite earlier ones). -/
def list_dashboards (s : Sys) (u : String) : List (String × Nat) :=
  (s.reg.filter (fun kv => kv.2.userId == u)).foldl
    (fun acc kv => pyDictSet acc (seg1 kv.1) kv.2.port) []

/-- `route_dashboard` (lines 196-203): the port behind the redirect, or
`none` for the 404. -/
def resolve (s : Sys) (u d : String) : Option Nat :=
  (pyDictGet s.reg (mkKey u d)).map (·.port)

/-- The index route (lines 205-209): all keys with their ports. -/
def listAll (s : Sys) : List (String × Nat) :=
  s.reg.map (fun kv => (kv.1, kv.2.port))

/-- One externally triggered mutating request, with its oracles. -/
inductive Op where
  | opCreate (osBusy : Nat → Bool) (oldStopOk startOk : Bool)
      (u d desc : String) (csv : Option String)
  | opRemove (stopOk : Bool) (u d : String)

/-- Apply one request to the state (responses discarded). -/
def applyOp (s : Sys) : Op → Sys
  | .opCreate osBusy oldStopOk startOk u d desc csv =>
      (create osBusy oldStopOk startOk s u d desc csv).2
  | .opRemove stopOk u d => (remove stopOk s u d).2

/-- Run a sequence of requests from a starting state. -/
def runOps (s : Sys) (ops : List Op) : Sys :=
  ops.foldl applyOp s

/-- An OS probe that reports every port free (no external listeners). -/
def noOsBusy : Nat → Bool := fun _ => false

/-- State after a successful `create_dashboard` for user `u`,
dashboard `d`. -/
def sUD : Sys := (create noOsBusy true true initSys "u" "d" "x" none).2

/-- State after a successful `create_dashboard` for user `u`,
dashboard `a:b` (a dashboard id containing a colon). -/
def sColon : Sys :=
  (create noOsBusy true true initSys "u" "a:b" "x" none).2

/-- State after a successful `create_dashboard` for user `a:b`,
dashboard `c` (a user id containing a colon). -/
def sAB : Sys :=
  (create noOsBusy true true initSys "a:b" "c" "x" none).2

/-- Well-formedness of the registry, the invariant maintained by the two
mutating handlers: keys are pairwise distinct (it is a dict), ports of
live entries are pairwise distinct, every key is the `user:dashboard`
encoding of the stored fields, and every entry was committed on the
success path of the backend start call. -/
def RegWF (reg : List (String × Record)) : Prop :=
  (reg.map (fun kv => kv.1)).Nodup ∧ (usedPorts reg).Nodup ∧
    ∀ kv ∈ reg, kv.1 = mkKey kv.2.userId kv.2.dashboardId ∧
      kv.2.backendConfirmed = true

/-! ## Association-list (Python dict) lemmas -/

theorem pyDictGet_erase_self {β : Type} (d : List (String × β)) (k : String) :
    pyDictGet (pyDictErase d k) k = none := by
  induction d with
  | nil => rfl
  | cons kv rest ih =>
      unfold pyDictErase pyDictGet at ih ⊢
      rw [List.filter_cons]
      by_cases h1 : kv.1 = k
      · rw [if_neg (by simp [h1])]
        exact ih
      · rw [if_pos (by simp [h1]), List.find?_cons_of_neg _ (by simp [h1])]
        exact ih

theorem pyDictGet_erase_ne {β : Type} (d : List (String × β)) (k k' : String)
    (h : k' ≠ k) : pyDictGet (pyDictErase d k) k' = pyDictGet d k' := by
  induction d with
  | nil => rfl
  | cons kv rest ih =>
      unfold pyDictErase pyDictGet at ih ⊢
      rw [List.filter_cons]
      by_cases h1 : kv.1 = k
      · rw [if_neg (by simp [h1])]
        rw [List.find?_cons_of_neg _
          (by simp only [h1]; simp; exact fun hc => h hc.symm)]
        exact ih
      · rw [if_pos (by simp [h1])]
        by_cases h2 : kv.1 = k'
        · rw [List.find?_cons_of_pos _ (by simp [h2]),
            List.find?_cons_of_pos _ (by simp [h2])]
        · rw [List.find?_cons_of_neg _ (by simp [h2]),
            List.find?_cons_of_neg _ (by simp [h2])]
          exact ih

theorem key_not_mem_erase {β : Type} (d : List (String × β)) (k : String) :
    k ∉ (pyDictErase d k).map (fun kv => kv.1) := by
  intro h
  obtain ⟨kv, hmem, hk⟩ := List.mem_map.mp h
  have := (List.mem_filter.mp hmem).2
  rw [hk] at this
  simp at this

theorem erase_map_sublist {β γ : Type} (d : List (String × β)) (k : String)
    (f : String × β → γ) :
    List.Sublist ((pyDictErase d k).map f) (d.map f) :=
  List.Sublist.map f (List.filter_sublist d)

theorem mem_erase_mem {β : Type} {d : List (String × β)} {k : String}
    {kv : String × β} (h : kv ∈ pyDictErase d k) : kv ∈ d :=
  (List.mem_filter.mp h).1

theorem pyDictSet_eq_append {β : Type} (d : List (String × β)) (k : String)
    (v : β) (h : k ∉ d.map (fun kv => kv.1)) : pyDictSet d k v = d ++ [(k, v)] := by
  induction d with
  | nil => rfl
  | cons kv rest ih =>
      simp only [List.map_cons, List.mem_cons] at h
      push_neg at h
      simp only [pyDictSet, List.cons_append]
      rw [if_neg (fun hc => h.1 hc.symm), ih h.2]

theorem pyDictGet_eq_some_mem {β : Type} {d : List (String × β)} {k : String}
    {v : β} (h : pyDictGet d k = some v) : ∃ kv ∈ d, kv.1 = k ∧ kv.2 = v := by
  unfold pyDictGet at h
  cases hf : d.find? (fun kv => kv.1 == k) with
  | none => rw [hf] at h; cases h
  | some kv =>
      rw [hf] at h
      refine ⟨kv, List.mem_of_find?_eq_some hf, ?_, ?_⟩
      · have := List.find?_some hf
        exact eq_of_beq this
      · simpa using h

theorem pyDictGet_append_absent {β : Type} (d : List (String × β))
    (k : String) (v : β) (h : k ∉ d.map (fun kv => kv.1)) :
    pyDictGet (d ++ [(k, v)]) k = some v := by
  induction d with
  | nil => simp [pyDictGet, List.find?]
  | cons kv rest ih =>
      simp only [List.map_cons, List.mem_cons] at h
      push_neg at h
      have h2 : (kv.1 == k) = false := by
        simp; exact fun hc => h.1 hc.symm
      simpa [pyDictGet, List.find?, h2] using ih h.2

theorem mem_pyDictSet {β : Type} {d : List (String × β)} {k : String} {v : β}
    {x : String × β} (h : x ∈ pyDictSet d k v) : x ∈ d ∨ x = (k, v) := by
  induction d with
  | nil => simpa [pyDictSet] using h
  | cons kv rest ih =>
      by_cases h1 : kv.1 = k
      · simp only [pyDictSet, if_pos h1, List.mem_cons] at h
        rcases h with h | h
        · exact Or.inr h
        · exact Or.inl (List.mem_cons_of_mem _ h)
      · simp only [pyDictSet, if_neg h1, List.mem_cons] at h
        rcases h with h | h
        · exact Or.inl (by simp [h])
        · rcases ih h with h2 | h2
          · exact Or.inl (List.mem_cons_of_mem _ h2)
          · exact Or.inr h2

/-! ## Linear port scan: `find?` over an ascending range -/

theorem find?_range'_none (p : Nat → Bool) (n : Nat) : ∀ s : Nat,
    ((List.range' s n).find? p = none ↔
      ∀ y, s ≤ y → y < s + n → p y = false) := by
  induction n with
  | zero =>
      intro s
      constructor
      · intro _ y h1 h2; omega
      · intro _; rfl
  | succ n ih =>
      intro s
      rw [show List.range' s (n + 1) = s :: List.range' (s + 1) n from
        List.range'_succ s n 1]
      cases hp : p s with
      | true =>
          rw [List.find?_cons_of_pos _ hp]
          constructor
          · intro h; cases h
          · intro h
            have := h s (Nat.le_refl s) (by omega)
            rw [this] at hp; cases hp
      | false =>
          rw [List.find?_cons_of_neg _ (by simp [hp]), ih (s + 1)]
          constructor
          · intro h y h1 h2
            rcases Nat.eq_or_lt_of_le h1 with h3 | h3
            · rw [← h3]; exact hp
            · exact h y h3 (by omega)
          · intro h y h1 h2
            exact h y (by omega) (by omega)

theorem find?_range'_some (p : Nat → Bool) (n : Nat) : ∀ s x : Nat,
    (List.range' s n).find? p = some x →
      s ≤ x ∧ x < s + n ∧ p x = true ∧ ∀ y, s ≤ y → y < x → p y = false := by
  induction n with
  | zero => intro s x h; cases h
  | succ n ih =>
      intro s x h
      rw [show List.range' s (n + 1) = s :: List.range' (s + 1) n from
        List.range'_succ s n 1] at h
      cases hp : p s with
      | true =>
          rw [List.find?_cons_of_pos _ hp] at h
          have hx : s = x := by injection h
          subst hx
          exact ⟨Nat.le_refl s, by omega, hp, fun y h1 h2 => by omega⟩
      | false =>
          rw [List.find?_cons_of_neg _ (by simp [hp])] at h
          obtain ⟨h1, h2, h3, h4⟩ := ih (s + 1) x h
          refine ⟨by omega, by omega, h3, ?_⟩
          intro y hy1 hy2
          rcases Nat.eq_or_lt_of_le hy1 with h5 | h5
          · rw [← h5]; exact hp
          · exact h4 y h5 hy2

theorem getFreePort_eq_some {osBusy : Nat → Bool}
    {reg : List (String × Record)} {p : Nat}
    (h : getFreePort osBusy reg = some p) :
    8051 ≤ p ∧ p ≤ 8100 ∧ osBusy p = false ∧ p ∉ usedPorts reg ∧
      ∀ q, 8051 ≤ q → q < p → osBusy q = true ∨ q ∈ usedPorts reg := by
  obtain ⟨h1, h2, h3, h4⟩ := find?_range'_some _ 50 8051 p h
  simp only [Bool.and_eq_true, Bool.not_eq_true', decide_eq_false_iff_not] at h3
  refine ⟨h1, by omega, h3.1, h3.2, ?_⟩
  intro q hq1 hq2
  have h5 := h4 q hq1 hq2
  by_cases hb : osBusy q = true
  · exact Or.inl hb
  · right
    rw [Bool.not_eq_true] at hb
    simp only [hb, Bool.not_false, Bool.true_and] at h5
    simpa using h5

theorem getFreePort_eq_none {osBusy : Nat → Bool}
    {reg : List (String × Record)} :
    getFreePort osBusy reg = none ↔
      ∀ q, 8051 ≤ q → q ≤ 8100 → osBusy q = true ∨ q ∈ usedPorts reg := by
  rw [getFreePort, find?_range'_none]
  constructor
  · intro h q h1 h2
    have h3 := h q h1 (by omega)
    by_cases hb : osBusy q = true
    · exact Or.inl hb
    · right
      rw [Bool.not_eq_true] at hb
      simp only [hb, Bool.not_false, Bool.true_and] at h3
      simpa using h3
  · intro h q h1 h2
    rcases h q h1 (by omega) with h3 | h3
    · simp [h3]
    · simp [h3]

/-! ## Path disjointness: config files never alias the secrets file -/

theorem configsDir_append_ne_envPath (m : String) :
    configsDir ++ m ≠ envPath := by
  intro h
  have h2 : (configsDir ++ m).data = envPath.data := by rw [h]
  rw [String.data_append] at h2
  have h3 := congrArg (List.take 13) h2
  rw [show (13 : Nat) = configsDir.data.length from rfl,
    List.take_left] at h3
  exact absurd h3 (by decide)

theorem configPath_ne_envPath (key : String) : configPath key ≠ envPath := by
  rw [configPath, String.append_assoc]
  exact configsDir_append_ne_envPath _

/-! ## Unfolding lemmas for `create` and `remove` -/

theorem create_invalid (osBusy : Nat → Bool) (a ok : Bool) (s : Sys)
    (u d desc : String) (csv : Option String)
    (h : u = "" ∨ d = "" ∨ desc = "") :
    create osBusy a ok s u d desc csv = (.validationError, s) := by
  rw [create, if_pos h]

theorem create_noPorts (osBusy : Nat → Bool) (a ok : Bool) (s : Sys)
    (u d desc : String) (csv : Option String)
    (hu : u ≠ "") (hd : d ≠ "") (hdesc : desc ≠ "")
    (hp : getFreePort osBusy (pyDictErase s.reg (mkKey u d)) = none) :
    create osBusy a ok s u d desc csv =
      (.noFreePorts,
        { s with reg := pyDictErase s.reg (mkKey u d),
                 fs := createFs s u d desc csv }) := by
  rw [create, if_neg (by simp [hu, hd, hdesc])]
  simp only [hp]

theorem create_backendFail (osBusy : Nat → Bool) (a : Bool) (s : Sys)
    (u d desc : String) (csv : Option String)
    (hu : u ≠ "") (hd : d ≠ "") (hdesc : desc ≠ "") (p : Nat)
    (hp : getFreePort osBusy (pyDictErase s.reg (mkKey u d)) = some p) :
    create osBusy a false s u d desc csv =
      (.backendError,
        { s with reg := pyDictErase s.reg (mkKey u d),
                 fs := createFs s u d desc csv }) := by
  rw [create, if_neg (by simp [hu, hd, hdesc])]
  simp only [hp]
  rfl

theorem create_success (osBusy : Nat → Bool) (a : Bool) (s : Sys)
    (u d desc : String) (csv : Option String)
    (hu : u ≠ "") (hd : d ≠ "") (hdesc : desc ≠ "") (p : Nat)
    (hp : getFreePort osBusy (pyDictErase s.reg (mkKey u d)) = some p) :
    create osBusy a true s u d desc csv =
      (.created p (mkKey u d),
        { reg := pyDictErase s.reg (mkKey u d) ++
            [(mkKey u d,
              { port := p, userId := u, dashboardId := d,
                handle := s.nextHandle, backendConfirmed := true })],
          fs := createFs s u d desc csv,
          nextHandle := s.nextHandle + 1 }) := by
  rw [create, if_neg (by simp [hu, hd, hdesc])]
  simp only [hp, if_true]
  rw [pyDictSet_eq_append _ _ _ (key_not_mem_erase s.reg (mkKey u d))]

theorem remove_invalid (ok : Bool) (s : Sys) (u d : String)
    (h : u = "" ∨ d = "") : remove ok s u d = (.validationError, s) := by
  rw [remove, if_pos h]

theorem remove_notFound (ok : Bool) (s : Sys) (u d : String)
    (hu : u ≠ "") (hd : d ≠ "")
    (h : pyDictGet s.reg (mkKey u d) = none) :
    remove ok s u d = (.notFound, s) := by
  rw [remove, if_neg (by simp [hu, hd])]
  simp only [h]

theorem remove_backendFail (s : Sys) (u d : String)
    (hu : u ≠ "") (hd : d ≠ "") (r : Record)
    (h : pyDictGet s.reg (mkKey u d) = some r) :
    remove false s u d =
      (.backendError, { s with reg := pyDictErase s.reg (mkKey u d) }) := by
  rw [remove, if_neg (by simp [hu, hd])]
  simp only [h]
  rfl

theorem remove_success (s : Sys) (u d : String)
    (hu : u ≠ "") (hd : d ≠ "") (r : Record)
    (h : pyDictGet s.reg (mkKey u d) = some r) :
    remove true s u d =
      (.removed, { s with reg := pyDictErase s.reg (mkKey u d),
                          fs := fsErase s.fs (configPath (mkKey u d)) }) := by
  rw [remove, if_neg (by simp [hu, hd])]
  simp only [h]
  rfl

/-- Whatever the branch, the registry after a `create` is the old one
(validation failure), the old one minus the key, or the old one minus the
key plus a freshly started record. -/
theorem create_reg_cases (osBusy : Nat → Bool) (a ok : Bool) (s : Sys)
    (u d desc : String) (csv : Option String) :
    (create osBusy a ok s u d desc csv).2.reg = s.reg ∨
    (create osBusy a ok s u d desc csv).2.reg =
      pyDictErase s.reg (mkKey u d) ∨
    ∃ p, getFreePort osBusy (pyDictErase s.reg (mkKey u d)) = some p ∧
      (create osBusy a ok s u d desc csv).2.reg =
        pyDictErase s.reg (mkKey u d) ++
          [(mkKey u d,
            { port := p, userId := u, dashboardId := d,
              handle := s.nextHandle, backendConfirmed := true })] := by
  by_cases hv : u = "" ∨ d = "" ∨ desc = ""
  · rw [create_invalid _ _ _ _ _ _ _ _ hv]
    exact Or.inl rfl
  · push_neg at hv
    obtain ⟨hu, hd, hdesc⟩ := hv
    cases hp : getFreePort osBusy (pyDictErase s.reg (mkKey u d)) with
    | none =>
        rw [create_noPorts _ _ _ _ _ _ _ _ hu hd hdesc hp]
        exact Or.inr (Or.inl rfl)
    | some p =>
        cases ok with
        | false =>
            rw [create_backendFail _ _ _ _ _ _ _ hu hd hdesc p hp]
            exact Or.inr (Or.inl rfl)
        | true =>
            rw [create_success _ _ _ _ _ _ _ hu hd hdesc p hp]
            exact Or.inr (Or.inr ⟨p, rfl, rfl⟩)


/-- The registry after a `remove` is the old one or the old one minus the
key. -/
theorem remove_reg_cases (ok : Bool) (s : Sys) (u d : String) :
    (remove ok s u d).2.reg = s.reg ∨
    (remove ok s u d).2.reg = pyDictErase s.reg (mkKey u d) := by
  by_cases hv : u = "" ∨ d = ""
  · rw [remove_invalid _ _ _ _ hv]; exact Or.inl rfl
  · push_neg at hv
    obtain ⟨hu, hd⟩ := hv
    cases h : pyDictGet s.reg (mkKey u d) with
    | none => rw [remove_notFound _ _ _ _ hu hd h]; exact Or.inl rfl
    | some r =>
        cases ok with
        | false =>
            rw [remove_backendFail _ _ _ hu hd r h]
            exact Or.inr rfl
        | true =>
            rw [remove_success _ _ _ hu hd r h]
            exact Or.inr rfl

/-- For a valid `create`, the file system afterwards is `createFs`,
whatever the port scan and the backend did. -/
theorem create_fs_eq (osBusy : Nat → Bool) (a ok : Bool) (s : Sys)
    (u d desc : String) (csv : Option String)
    (hu : u ≠ "") (hd : d ≠ "") (hdesc : desc ≠ "") :
    (create osBusy a ok s u d desc csv).2.fs = createFs s u d desc csv := by
  cases hp : getFreePort osBusy (pyDictErase s.reg (mkKey u d)) with
  | none => rw [create_noPorts _ _ _ _ _ _ _ _ hu hd hdesc hp]
  | some p =>
      cases ok with
      | false => rw [create_backendFail _ _ _ _ _ _ _ hu hd hdesc p hp]
      | true => rw [create_success _ _ _ _ _ _ _ hu hd hdesc p hp]

/-! ## The registry invariant is preserved by every request -/

theorem regWF_erase (reg : List (String × Record)) (k : String)
    (h : RegWF reg) : RegWF (pyDictErase reg k) := by
  obtain ⟨h1, h2, h3⟩ := h
  refine ⟨List.Nodup.sublist (erase_map_sublist reg k _) h1,
    List.Nodup.sublist (erase_map_sublist reg k _) h2, ?_⟩
  intro kv hkv
  exact h3 kv (mem_erase_mem hkv)

theorem regWF_append_fresh (reg : List (String × Record)) (k : String)
    (r : Record) (h : RegWF reg) (hk : k ∉ reg.map (fun kv => kv.1))
    (hp : r.port ∉ usedPorts reg)
    (hr : k = mkKey r.userId r.dashboardId ∧ r.backendConfirmed = true) :
    RegWF (reg ++ [(k, r)]) := by
  obtain ⟨h1, h2, h3⟩ := h
  refine ⟨?_, ?_, ?_⟩
  · rw [List.map_append]
    simp only [List.map_cons, List.map_nil]
    rw [List.nodup_append]
    exact ⟨h1, List.nodup_singleton k,
      by simpa [List.disjoint_right] using hk⟩
  · rw [usedPorts, List.map_append]
    simp only [List.map_cons, List.map_nil]
    rw [List.nodup_append]
    refine ⟨h2, List.nodup_singleton r.port, fun x hx hx2 => ?_⟩
    rw [List.mem_singleton] at hx2
    subst hx2
    exact hp hx
  · intro kv hkv
    rcases List.mem_append.mp hkv with hkv | hkv
    · exact h3 kv hkv
    · rcases List.mem_singleton.mp hkv with rfl
      exact hr

theorem regWF_applyOp (s : Sys) (op : Op) (h : RegWF s.reg) :
    RegWF (applyOp s op).reg := by
  cases op with
  | opRemove stopOk u d =>
      rcases remove_reg_cases stopOk s u d with hc | hc <;>
        simp only [applyOp] <;> rw [hc]
      · exact h
      · exact regWF_erase _ _ h
  | opCreate osBusy a ok u d desc csv =>
      rcases create_reg_cases osBusy a ok s u d desc csv with hc | hc | hc <;>
        simp only [applyOp]
      · rw [hc]; exact h
      · rw [hc]; exact regWF_erase _ _ h
      · obtain ⟨p, hp, hc⟩ := hc
        rw [hc]
        have hfacts := getFreePort_eq_some hp
        exact regWF_append_fresh _ _ _ (regWF_erase _ _ h)
          (key_not_mem_erase s.reg (mkKey u d)) hfacts.2.2.2.1 ⟨rfl, rfl⟩

theorem regWF_runOps (s : Sys) (ops : List Op) (h : RegWF s.reg) :
    RegWF (runOps s ops).reg := by
  induction ops generalizing s with
  | nil => exact h
  | cons op rest ih =>
      exact ih (applyOp s op) (regWF_applyOp s op h)

theorem regWF_reachable (ops : List Op) : RegWF (runOps initSys ops).reg :=
  regWF_runOps initSys ops
    ⟨List.nodup_nil, List.nodup_nil, fun kv hkv => nomatch hkv⟩

/-! ## Key encoding: `user_id ++ ":" ++ dashboard_id` and `split(":")` -/

theorem mkKey_data (u d : String) :
    (mkKey u d).data = u.data ++ ':' :: d.data := by
  rw [mkKey, String.data_append, String.data_append, List.append_assoc]
  rfl

theorem splitColon_ne_nil (l : List Char) : splitColon l ≠ [] := by
  cases l with
  | nil => simp [splitColon]
  | cons c rest =>
      rw [splitColon]
      by_cases h : c = ':'
      · simp [h]
      · rw [if_neg h]
        cases hs : splitColon rest with
        | nil => simp
        | cons s ss => simp

theorem splitColon_no_colon (l : List Char) (h : ':' ∉ l) :
    splitColon l = [l] := by
  induction l with
  | nil => rfl
  | cons c rest ih =>
      simp only [List.mem_cons] at h
      push_neg at h
      rw [splitColon, if_neg (fun hc => h.1 hc.symm), ih h.2]

theorem splitColon_append (a rest : List Char) (h : ':' ∉ a) :
    splitColon (a ++ ':' :: rest) = a :: splitColon rest := by
  induction a with
  | nil => simp [splitColon]
  | cons c a' ih =>
      simp only [List.mem_cons] at h
      push_neg at h
      rw [List.cons_append, splitColon, if_neg (fun hc => h.1 hc.symm),
        ih h.2]

theorem seg1_mkKey (u d : String) (hu : ':' ∉ u.data) (hd : ':' ∉ d.data) :
    seg1 (mkKey u d) = d := by
  rw [seg1, mkKey_data, splitColon_append u.data d.data hu,
    splitColon_no_colon d.data hd]
  rfl

theorem append_colon_inj (a : List Char) : ∀ (b x y : List Char),
    ':' ∉ a → ':' ∉ b → a ++ ':' :: x = b ++ ':' :: y → a = b ∧ x = y := by
  induction a with
  | nil =>
      intro b x y _ hb h
      cases b with
      | nil => simpa using h
      | cons c bs =>
          simp only [List.nil_append, List.cons_append, List.cons.injEq] at h
          exact absurd (List.mem_cons_self c bs)
            (by rw [← h.1] at hb ⊢; exact fun hc => hb hc)
  | cons c as ih =>
      intro b x y ha hb h
      simp only [List.mem_cons] at ha
      push_neg at ha
      cases b with
      | nil =>
          simp only [List.cons_append, List.nil_append, List.cons.injEq] at h
          exact absurd h.1.symm ha.1
      | cons c' bs =>
          simp only [List.mem_cons] at hb
          push_neg at hb
          simp only [List.cons_append, List.cons.injEq] at h
          obtain ⟨h1, h2⟩ := ih bs x y ha.2 hb.2 h.2
          exact ⟨by rw [h.1, h1], h2⟩

theorem mkKey_inj_of_no_colon (u1 d1 u2 d2 : String)
    (h1 : ':' ∉ u1.data) (h2 : ':' ∉ u2.data)
    (h : mkKey u1 d1 = mkKey u2 d2) : u1 = u2 ∧ d1 = d2 := by
  have hdata : (mkKey u1 d1).data = (mkKey u2 d2).data := by rw [h]
  rw [mkKey_data, mkKey_data] at hdata
  obtain ⟨hu, hd⟩ := append_colon_inj u1.data u2.data d1.data d2.data h1 h2
    hdata
  exact ⟨String.ext hu, String.ext hd⟩

theorem mkKey_left_cancel (u d1 d2 : String)
    (h : mkKey u d1 = mkKey u d2) : d1 = d2 := by
  have hdata : (mkKey u d1).data = (mkKey u d2).data := by rw [h]
  rw [mkKey_data, mkKey_data] at hdata
  have h2 := List.append_cancel_left hdata
  simp only [List.cons.injEq, true_and] at h2
  exact String.ext h2

/-! ## The dict comprehension of `list_dashboards` as a fold -/

theorem mem_foldl_pyDictSet {α : Type} (f : α → String) (g : α → Nat) :
    ∀ (l : List α) (acc : List (String × Nat)) (x : String × Nat),
      x ∈ l.foldl (fun a kv => pyDictSet a (f kv) (g kv)) acc →
      x ∈ acc ∨ ∃ kv ∈ l, x = (f kv, g kv) := by
  intro l
  induction l with
  | nil => intro acc x h; exact Or.inl h
  | cons y l ih =>
      intro acc x h
      rw [List.foldl_cons] at h
      rcases ih _ x h with h2 | h2
      · rcases mem_pyDictSet h2 with h3 | h3
        · exact Or.inl h3
        · exact Or.inr ⟨y, List.mem_cons_self y l, h3⟩
      · obtain ⟨kv, hkv, hx⟩ := h2
        exact Or.inr ⟨kv, List.mem_cons_of_mem y hkv, hx⟩

theorem foldl_pyDictSet_eq_map {α : Type} (f : α → String) (g : α → Nat) :
    ∀ (l : List α) (acc : List (String × Nat)),
      (l.map f).Nodup → (∀ x ∈ l, f x ∉ acc.map (fun kv => kv.1)) →
      l.foldl (fun a kv => pyDictSet a (f kv) (g kv)) acc =
        acc ++ l.map (fun x => (f x, g x)) := by
  intro l
  induction l with
  | nil => intro acc _ _; simp
  | cons y l ih =>
      intro acc hnd hacc
      simp only [List.map_cons, List.nodup_cons] at hnd
      rw [List.foldl_cons,
        pyDictSet_eq_append _ _ _ (hacc y (List.mem_cons_self y l))]
      have hacc2 : ∀ x ∈ l,
          f x ∉ (acc ++ [(f y, g y)]).map (fun kv => kv.1) := by
        intro x hx
        rw [List.map_append, List.mem_append]
        push_neg
        refine ⟨hacc x (List.mem_cons_of_mem y hx), ?_⟩
        simp only [List.map_cons, List.map_nil, List.mem_singleton]
        exact fun hc => hnd.1 (hc ▸ List.mem_map_of_mem f hx)
      rw [ih (acc ++ [(f y, g y)]) hnd.2 hacc2]
      simp

/-! ## Secrets-file lemmas -/

theorem fsGet_write_ne (fs : List (String × String)) (path content q : String)
    (h : q ≠ path) : fsGet (fsWrite fs path content) q = fsGet fs q := by
  induction fs with
  | nil =>
      unfold fsWrite pyDictSet fsGet
      rw [List.find?_cons_of_neg _ (by simp; exact fun hc => h hc.symm)]
  | cons kv rest ih =>
      unfold fsWrite at ih ⊢
      unfold fsGet at ih ⊢
      simp only [pyDictSet] at ih ⊢
      by_cases h1 : kv.1 = path
      · rw [if_pos h1,
          List.find?_cons_of_neg _ (by simp; exact fun hc => h hc.symm),
          List.find?_cons_of_neg _
            (by simp only [h1]; simp; exact fun hc => h hc.symm)]
      · rw [if_neg h1]
        by_cases h2 : kv.1 = q
        · rw [List.find?_cons_of_pos _ (by simp [h2]),
            List.find?_cons_of_pos _ (by simp [h2])]
        · rw [List.find?_cons_of_neg _ (by simp [h2]),
            List.find?_cons_of_neg _ (by simp [h2])]
          exact ih

theorem fsGet_write_self (fs : List (String × String)) (path content : String) :
    fsGet (fsWrite fs path content) path = some content := by
  induction fs with
  | nil =>
      unfold fsWrite pyDictSet fsGet
      rw [List.find?_cons_of_pos _ (by simp)]
      rfl
  | cons kv rest ih =>
      unfold fsWrite at ih ⊢
      unfold fsGet at ih ⊢
      simp only [pyDictSet] at ih ⊢
      by_cases h1 : kv.1 = path
      · rw [if_pos h1, List.find?_cons_of_pos _ (by simp)]
        rfl
      · rw [if_neg h1, List.find?_cons_of_neg _ (by simp [h1])]
        exact ih

theorem fsGet_erase_ne (fs : List (String × String)) (path q : String)
    (h : q ≠ path) : fsGet (fsErase fs path) q = fsGet fs q :=
  pyDictGet_erase_ne fs path q h

/-- Content of the secrets file after the provisioning steps of a valid
`create`: untouched if present, the placeholder if absent. -/
theorem createFs_envPath (s : Sys) (u d desc : String) (csv : Option String) :
    fsGet (createFs s u d desc csv) envPath =
      some ((fsGet s.fs envPath).getD secretsPlaceholder) := by
  rw [createFs]
  have h1 : fsGet
      (fsWrite s.fs (configPath (mkKey u d)) (configContent u d desc csv))
      envPath = fsGet s.fs envPath :=
    fsGet_write_ne _ _ _ _ (fun hc => configPath_ne_envPath _ hc.symm)
  cases h2 : fsGet s.fs envPath with
  | some c =>
      rw [if_pos (by rw [h1, h2]; rfl), h1, h2]
      rfl
  | none =>
      rw [if_neg (by rw [h1, h2]; simp), fsGet_write_self]
      rfl

/-- Once the secrets file exists, no request changes its content. -/
theorem applyOp_envPath (s : Sys) (op : Op) (c : String)
    (h : fsGet s.fs envPath = some c) :
    fsGet (applyOp s op).fs envPath = some c := by
  cases op with
  | opCreate osBusy a ok u d desc csv =>
      simp only [applyOp]
      by_cases hv : u = "" ∨ d = "" ∨ desc = ""
      · rw [create_invalid _ _ _ _ _ _ _ _ hv]
        exact h
      · push_neg at hv
        rw [create_fs_eq _ _ _ _ _ _ _ _ hv.1 hv.2.1 hv.2.2,
          createFs_envPath, h]
        rfl
  | opRemove stopOk u d =>
      simp only [applyOp]
      by_cases hv : u = "" ∨ d = ""
      · rw [remove_invalid _ _ _ _ hv]; exact h
      · push_neg at hv
        cases hg : pyDictGet s.reg (mkKey u d) with
        | none => rw [remove_notFound _ _ _ _ hv.1 hv.2 hg]; exact h
        | some r =>
            cases stopOk with
            | false => rw [remove_backendFail _ _ _ hv.1 hv.2 r hg]; exact h
            | true =>
                rw [remove_success _ _ _ hv.1 hv.2 r hg]
                simp only
                rw [fsGet_erase_ne _ _ _
                  (fun hc => configPath_ne_envPath _ hc.symm)]
                exact h

theorem runOps_envPath (s : Sys) (ops : List Op) (c : String)
    (h : fsGet s.fs envPath = some c) :
    fsGet (runOps s ops).fs envPath = some c := by
  induction ops generalizing s with
  | nil => exact h
  | cons op rest ih => exact ih (applyOp s op) (applyOp_envPath s op c h)

/-! ## Claim theorems -/

/-- Claim C1, counterexample: in the state `sUD` holding an entry for key
`u:d`, calling Remove with a failing backend teardown does surface the
backend error, but the registry entry is NOT left in place: it was popped
before the backend call, and a subsequent Resolve returns not-found.  This
refutes the claim that the entry is still retrievable. -/
theorem remove_backend_failure_keeps_entry_cex :
    pyDictGet sUD.reg (mkKey "u" "d") =
        some { port := 8051, userId := "u", dashboardId := "d",
               handle := 0, backendConfirmed := true } ∧
      (remove false sUD "u" "d").1 = RemoveOutcome.backendError ∧
      pyDictGet (remove false sUD "u" "d").2.reg (mkKey "u" "d") = none ∧
      resolve (remove false sUD "u" "d").2 "u" "d" = none := by
  decide

/-- Claim C1, amended: for every registry state containing an entry for
key `k`, if Remove(k) is called and the backend Stop or Remove call fails,
then Remove surfaces the backend error, but the entry was already popped
from the registry before the backend call, so the entry is gone and a
subsequent Resolve(k) reports not-found. -/
theorem remove_backend_failure_pops_entry (s : Sys) (u d : String)
    (hu : u ≠ "") (hd : d ≠ "") (r : Record)
    (hr : pyDictGet s.reg (mkKey u d) = some r) :
    (remove false s u d).1 = RemoveOutcome.backendError ∧
      pyDictGet (remove false s u d).2.reg (mkKey u d) = none ∧
      resolve (remove false s u d).2 u d = none := by
  rw [remove_backendFail s u d hu hd r hr]
  refine ⟨rfl, pyDictGet_erase_self _ _, ?_⟩
  rw [resolve]
  simp only
  rw [pyDictGet_erase_self]
  rfl

/-- Witness for the amended C1 at the concrete state `sUD`. -/
theorem remove_backend_failure_pops_entry_witness :
    (remove false sUD "u" "d").1 = RemoveOutcome.backendError ∧
      pyDictGet (remove false sUD "u" "d").2.reg (mkKey "u" "d") = none ∧
      resolve (remove false sUD "u" "d").2 "u" "d" = none :=
  remove_backend_failure_pops_entry sUD "u" "d" (by decide) (by decide)
    { port := 8051, userId := "u", dashboardId := "d",
      handle := 0, backendConfirmed := true } (by decide)

/-- Claim C2: if the backend start step of a Create fails (a port had been
found, then `containers.run` raised), the call returns the backend error,
the registry holds no entry for the key, the selected port is recorded
nowhere, and the very same port is what the next Create's scan would
return. -/
theorem create_backend_failure_rolls_back (osBusy : Nat → Bool) (a : Bool)
    (s : Sys) (u d desc : String) (csv : Option String)
    (hu : u ≠ "") (hd : d ≠ "") (hdesc : desc ≠ "") (p : Nat)
    (hp : getFreePort osBusy (pyDictErase s.reg (mkKey u d)) = some p) :
    (create osBusy a false s u d desc csv).1 = CreateOutcome.backendError ∧
      pyDictGet (create osBusy a false s u d desc csv).2.reg (mkKey u d) =
        none ∧
      p ∉ usedPorts (create osBusy a false s u d desc csv).2.reg ∧
      getFreePort osBusy (create osBusy a false s u d desc csv).2.reg =
        some p := by
  rw [create_backendFail osBusy a s u d desc csv hu hd hdesc p hp]
  exact ⟨rfl, pyDictGet_erase_self _ _,
    (getFreePort_eq_some hp).2.2.2.1, hp⟩

/-- Witness for C2 at a concrete failing Create. -/
theorem create_backend_failure_rolls_back_witness :
    (create noOsBusy true false initSys "u" "d" "x" none).1 =
        CreateOutcome.backendError ∧
      pyDictGet (create noOsBusy true false initSys "u" "d" "x" none).2.reg
        (mkKey "u" "d") = none ∧
      8051 ∉
        usedPorts (create noOsBusy true false initSys "u" "d" "x" none).2.reg ∧
      getFreePort noOsBusy
        (create noOsBusy true false initSys "u" "d" "x" none).2.reg =
        some 8051 :=
  create_backend_failure_rolls_back noOsBusy true initSys "u" "d" "x" none
    (by decide) (by decide) (by decide) 8051 (by decide)

/-- Claim C3: in every state reachable by Create/Remove sequences, each
registry entry carries the ghost flag recording that its backend start
call returned successfully; moreover a Create whose backend start fails
leaves no entry for its key, so no pre-start record is ever observable. -/
theorem registry_entries_backend_confirmed :
    (∀ (ops : List Op) (k : String) (r : Record),
      pyDictGet (runOps initSys ops).reg k = some r →
        r.backendConfirmed = true)
    ∧ ∀ (osBusy : Nat → Bool) (a : Bool) (s : Sys) (u d desc : String)
        (csv : Option String), u ≠ "" → d ≠ "" → desc ≠ "" →
        pyDictGet (create osBusy a false s u d desc csv).2.reg (mkKey u d) =
          none := by
  constructor
  · intro ops k r hr
    obtain ⟨kv, hkv, _, hv⟩ := pyDictGet_eq_some_mem hr
    have h3 := (regWF_reachable ops).2.2 kv hkv
    rw [← hv]
    exact h3.2
  · intro osBusy a s u d desc csv hu hd hdesc
    cases hp : getFreePort osBusy (pyDictErase s.reg (mkKey u d)) with
    | none =>
        rw [create_noPorts osBusy a false s u d desc csv hu hd hdesc hp]
        exact pyDictGet_erase_self _ _
    | some p =>
        rw [create_backendFail osBusy a s u d desc csv hu hd hdesc p hp]
        exact pyDictGet_erase_self _ _

/-- Witness for C3: the entry committed by one successful Create carries
the flag, and one failed Create leaves nothing behind. -/
theorem registry_entries_backend_confirmed_witness :
    Record.backendConfirmed
        { port := 8051, userId := "u", dashboardId := "d",
          handle := 0, backendConfirmed := true } = true ∧
      pyDictGet (create noOsBusy true false initSys "u" "d" "x" none).2.reg
        (mkKey "u" "d") = none :=
  ⟨registry_entries_backend_confirmed.1
      [Op.opCreate noOsBusy true true "u" "d" "x" none] (mkKey "u" "d")
      { port := 8051, userId := "u", dashboardId := "d",
        handle := 0, backendConfirmed := true } (by decide),
    registry_entries_backend_confirmed.2 noOsBusy true initSys "u" "d" "x"
      none (by decide) (by decide) (by decide)⟩

/-- Claim C4: in every state reachable by Create/Remove sequences, any two
distinct registry entries hold distinct ports. -/
theorem registry_ports_pairwise_distinct (ops : List Op) :
    List.Pairwise (fun a b => a.2.port ≠ b.2.port)
      (runOps initSys ops).reg := by
  have h := (regWF_reachable ops).2.1
  rw [usedPorts, List.Nodup, List.pairwise_map] at h
  exact h

/-- Claim C5: the port scan returns the smallest port of [8051, 8100] that
is neither OS-occupied nor held by a registry entry, and fails exactly when
no port of the range qualifies. -/
theorem port_acquisition_first_eligible (osBusy : Nat → Bool)
    (reg : List (String × Record)) :
    (∀ p, getFreePort osBusy reg = some p →
      8051 ≤ p ∧ p ≤ 8100 ∧ osBusy p = false ∧ p ∉ usedPorts reg ∧
        ∀ q, 8051 ≤ q → q < p → osBusy q = true ∨ q ∈ usedPorts reg)
    ∧ (getFreePort osBusy reg = none ↔
        ∀ q, 8051 ≤ q → q ≤ 8100 → osBusy q = true ∨ q ∈ usedPorts reg) :=
  ⟨fun _ hp => getFreePort_eq_some hp, getFreePort_eq_none⟩

/-- Witness for C5 on the empty registry with a free OS. -/
theorem port_acquisition_first_eligible_witness :
    8051 ≤ 8051 ∧ 8051 ≤ 8100 ∧ noOsBusy 8051 = false ∧
      8051 ∉ usedPorts [] ∧
      ∀ q, 8051 ≤ q → q < 8051 → noOsBusy q = true ∨ q ∈ usedPorts [] :=
  (port_acquisition_first_eligible noOsBusy []).1 8051 (by decide)

/-- Claim C6: Create on a key that already has an entry pops the old entry
first, whatever the teardown of the old container does: the result is
entirely independent of the teardown outcome, the old entry is gone on
every failure path, and after a successful replace the registry holds
exactly one entry for the key — the new record. -/
theorem create_replace_single_entry (osBusy : Nat → Bool) (s : Sys)
    (u d desc : String) (csv : Option String)
    (hu : u ≠ "") (hd : d ≠ "") (hdesc : desc ≠ "") (r : Record)
    (hr : pyDictGet s.reg (mkKey u d) = some r) :
    (∀ a b ok, create osBusy a ok s u d desc csv =
      create osBusy b ok s u d desc csv)
    ∧ (∀ a, pyDictGet (create osBusy a false s u d desc csv).2.reg
        (mkKey u d) = none)
    ∧ (∀ a, getFreePort osBusy (pyDictErase s.reg (mkKey u d)) = none →
        pyDictGet (create osBusy a true s u d desc csv).2.reg (mkKey u d) =
          none)
    ∧ ∀ a p, getFreePort osBusy (pyDictErase s.reg (mkKey u d)) = some p →
        pyDictGet (create osBusy a true s u d desc csv).2.reg (mkKey u d) =
          some { port := p, userId := u, dashboardId := d,
                 handle := s.nextHandle, backendConfirmed := true } ∧
        ((create osBusy a true s u d desc csv).2.reg.filter
          (fun kv => kv.1 == mkKey u d)).length = 1 := by
  refine ⟨fun a b ok => rfl, ?_, ?_, ?_⟩
  · intro a
    cases hp : getFreePort osBusy (pyDictErase s.reg (mkKey u d)) with
    | none =>
        rw [create_noPorts osBusy a false s u d desc csv hu hd hdesc hp]
        exact pyDictGet_erase_self _ _
    | some p =>
        rw [create_backendFail osBusy a s u d desc csv hu hd hdesc p hp]
        exact pyDictGet_erase_self _ _
  · intro a hp
    rw [create_noPorts osBusy a true s u d desc csv hu hd hdesc hp]
    exact pyDictGet_erase_self _ _
  · intro a p hp
    rw [create_success osBusy a s u d desc csv hu hd hdesc p hp]
    constructor
    · exact pyDictGet_append_absent _ _ _ (key_not_mem_erase _ _)
    · rw [List.filter_append]
      have h1 : (pyDictErase s.reg (mkKey u d)).filter
          (fun kv => kv.1 == mkKey u d) = [] := by
        rw [List.filter_eq_nil_iff]
        intro kv hkv
        have h2 := (List.mem_filter.mp hkv).2
        simp at h2 ⊢
        exact h2
      rw [h1]
      simp

/-- Witness for C6: replacing `u:d` in `sUD` leaves exactly the new
record. -/
theorem create_replace_single_entry_witness :
    pyDictGet (create noOsBusy true true sUD "u" "d" "y" none).2.reg
        (mkKey "u" "d") =
        some { port := 8051, userId := "u", dashboardId := "d",
               handle := sUD.nextHandle, backendConfirmed := true } ∧
      ((create noOsBusy true true sUD "u" "d" "y" none).2.reg.filter
        (fun kv => kv.1 == mkKey "u" "d")).length = 1 :=
  (create_replace_single_entry noOsBusy sUD "u" "d" "y" none (by decide)
      (by decide) (by decide)
      { port := 8051, userId := "u", dashboardId := "d",
        handle := 0, backendConfirmed := true } (by decide)).2.2.2 true 8051
    (by decide)

/-- Claim C7, counterexample: in the reachable state `sColon`, whose only
entry stores `dashboardId = "a:b"`, ListForUser returns the mapping keyed
by `"a"` — the second colon-segment of the registry key — and not by the
stored dashboard id, refuting that the result is exactly the mapping
`dashboardId -> port`. -/
theorem list_dashboards_segment_cex :
    pyDictGet sColon.reg (mkKey "u" "a:b") =
        some { port := 8051, userId := "u", dashboardId := "a:b",
               handle := 0, backendConfirmed := true } ∧
      list_dashboards sColon "u" = [("a", 8051)] ∧
      list_dashboards sColon "u" ≠ [("a:b", 8051)] := by
  decide

/-- Claim C7, amended: every entry of the ListForUser result comes from a
registry entry whose stored userId equals the queried user (so no other
user's entry ever appears), keyed by the second colon-segment of the
registry key; when every one of the user's entries has colon-free userId
and dashboardId, the result is exactly the mapping
`dashboardId -> port` over the user's entries. -/
theorem list_dashboards_user_scoped (ops : List Op) (u : String) :
    (∀ x ∈ list_dashboards (runOps initSys ops) u,
      ∃ kv ∈ (runOps initSys ops).reg,
        kv.2.userId = u ∧ x = (seg1 kv.1, kv.2.port))
    ∧ ((∀ kv ∈ (runOps initSys ops).reg, kv.2.userId = u →
          ':' ∉ kv.2.userId.data ∧ ':' ∉ kv.2.dashboardId.data) →
        list_dashboards (runOps initSys ops) u =
          ((runOps initSys ops).reg.filter
            (fun kv => kv.2.userId == u)).map
            (fun kv => (kv.2.dashboardId, kv.2.port))) := by
  constructor
  · intro x hx
    rw [list_dashboards] at hx
    rcases mem_foldl_pyDictSet _ _ _ _ _ hx with h | ⟨kv, hkv, hxe⟩
    · cases h
    · have hm := List.mem_filter.mp hkv
      exact ⟨kv, hm.1, by simpa using hm.2, hxe⟩
  · intro hcf
    rw [list_dashboards]
    have hwf := regWF_reachable ops
    have hsub : ∀ kv ∈ (runOps initSys ops).reg.filter
        (fun kv => kv.2.userId == u), kv ∈ (runOps initSys ops).reg :=
      fun kv hkv => (List.mem_filter.mp hkv).1
    have hseg : ∀ kv ∈ (runOps initSys ops).reg.filter
        (fun kv => kv.2.userId == u), seg1 kv.1 = kv.2.dashboardId := by
      intro kv hkv
      have hmem := hsub kv hkv
      have huid : kv.2.userId = u := by
        simpa using (List.mem_filter.mp hkv).2
      obtain ⟨hco, _⟩ := hwf.2.2 kv hmem
      obtain ⟨hc1, hc2⟩ := hcf kv hmem huid
      rw [hco]
      exact seg1_mkKey _ _ hc1 hc2
    have hkeys : (((runOps initSys ops).reg.filter
        (fun kv => kv.2.userId == u)).map (fun kv => kv.1)).Nodup :=
      List.Nodup.sublist
        (List.Sublist.map _ (List.filter_sublist _)) hwf.1
    have hnd : (((runOps initSys ops).reg.filter
        (fun kv => kv.2.userId == u)).map (fun kv => seg1 kv.1)).Nodup := by
      rw [List.map_congr_left hseg]
      rw [List.Nodup, List.pairwise_map]
      rw [List.Nodup, List.pairwise_map] at hkeys
      refine List.Pairwise.imp_of_mem ?_ hkeys
      intro a b ha hb hne heq
      obtain ⟨hcoa, _⟩ := hwf.2.2 a (hsub a ha)
      obtain ⟨hcob, _⟩ := hwf.2.2 b (hsub b hb)
      have hua : a.2.userId = u := by simpa using (List.mem_filter.mp ha).2
      have hub : b.2.userId = u := by simpa using (List.mem_filter.mp hb).2
      refine hne ?_
      rw [hcoa, hcob, hua, hub, heq]
    rw [foldl_pyDictSet_eq_map _ _ _ [] hnd (by intro x _ hc; cases hc)]
    rw [List.nil_append]
    refine List.map_congr_left ?_
    intro kv hkv
    rw [hseg kv hkv]

/-- Witness for the amended C7: after one colon-free Create, ListForUser
is exactly the `dashboardId -> port` mapping of that user. -/
theorem list_dashboards_user_scoped_witness :
    list_dashboards
        (runOps initSys [Op.opCreate noOsBusy true true "u" "d" "x" none])
        "u" =
      ((runOps initSys
          [Op.opCreate noOsBusy true true "u" "d" "x" none]).reg.filter
        (fun kv => kv.2.userId == "u")).map
        (fun kv => (kv.2.dashboardId, kv.2.port)) :=
  (list_dashboards_user_scoped
    [Op.opCreate noOsBusy true true "u" "d" "x" none] "u").2 (by decide)

/-- Claim C8, counterexample: the code has no conflict detection at all.
In the state `sUD`, whose key `u:d` already has a live instance (standing
for an operation whose effects are in flight), a second Create for the
same key is not rejected — it runs the full replace path and returns the
success response, and a Remove likewise completes; no response of either
handler is a conflict rejection. -/
theorem conflict_rejection_cex :
    (pyDictGet sUD.reg (mkKey "u" "d")).isSome = true ∧
      (create noOsBusy true true sUD "u" "d" "y" none).1 =
        CreateOutcome.created 8051 (mkKey "u" "d") ∧
      (remove true sUD "u" "d").1 = RemoveOutcome.removed := by
  decide

/-- Claim C8, amended: the code never rejects a mutating request for a
busy key: a Create for a key that already has an entry proceeds through
the normal replace path and commits, and a Remove for it proceeds and
removes — there is no ConflictInProgress response in the program. -/
theorem busy_key_mutations_proceed (osBusy : Nat → Bool) (a : Bool)
    (s : Sys) (u d desc : String) (csv : Option String)
    (hu : u ≠ "") (hd : d ≠ "") (hdesc : desc ≠ "") (r : Record)
    (hr : pyDictGet s.reg (mkKey u d) = some r) (p : Nat)
    (hp : getFreePort osBusy (pyDictErase s.reg (mkKey u d)) = some p) :
    (create osBusy a true s u d desc csv).1 =
        CreateOutcome.created p (mkKey u d) ∧
      (remove true s u d).1 = RemoveOutcome.removed := by
  constructor
  · rw [create_success osBusy a s u d desc csv hu hd hdesc p hp]
  · rw [remove_success s u d hu hd r hr]

/-- Witness for the amended C8 at the concrete state `sUD`. -/
theorem busy_key_mutations_proceed_witness :
    (create noOsBusy true true sUD "u" "d" "y" none).1 =
        CreateOutcome.created 8051 (mkKey "u" "d") ∧
      (remove true sUD "u" "d").1 = RemoveOutcome.removed :=
  busy_key_mutations_proceed noOsBusy true sUD "u" "d" "y" none (by decide)
    (by decide) (by decide)
    { port := 8051, userId := "u", dashboardId := "d",
      handle := 0, backendConfirmed := true } (by decide) 8051 (by decide)

/-- Claim C9: the shared secrets file is created with the placeholder only
when absent and is never modified afterwards — once it holds some content,
every sequence of requests preserves that content, and a valid Create
finding it absent writes exactly the placeholder. -/
theorem secrets_file_write_once :
    (∀ (s : Sys) (ops : List Op) (c : String),
      fsGet s.fs envPath = some c →
        fsGet (runOps s ops).fs envPath = some c)
    ∧ ∀ (osBusy : Nat → Bool) (a ok : Bool) (s : Sys) (u d desc : String)
        (csv : Option String), u ≠ "" → d ≠ "" → desc ≠ "" →
        fsGet s.fs envPath = none →
        fsGet (create osBusy a ok s u d desc csv).2.fs envPath =
          some secretsPlaceholder := by
  constructor
  · exact runOps_envPath
  · intro osBusy a ok s u d desc csv hu hd hdesc habs
    rw [create_fs_eq osBusy a ok s u d desc csv hu hd hdesc,
      createFs_envPath, habs]
    rfl

/-- Witness for C9: the first Create writes the placeholder; a later
Create leaves it unchanged. -/
theorem secrets_file_write_once_witness :
    fsGet (create noOsBusy true true initSys "u" "d" "x" none).2.fs envPath =
        some secretsPlaceholder ∧
      fsGet (runOps sUD [Op.opCreate noOsBusy true true "u" "e" "x" none]).fs
        envPath = some secretsPlaceholder :=
  ⟨secrets_file_write_once.2 noOsBusy true true initSys "u" "d" "x" none
      (by decide) (by decide) (by decide) (by decide),
    secrets_file_write_once.1 sUD
      [Op.opCreate noOsBusy true true "u" "e" "x" none] secretsPlaceholder
      (by decide)⟩

/-- Claim C10: the key encoding `userId ++ ":" ++ dashboardId` collides —
`("a:b", "c")` and `("a", "b:c")` are distinct pairs with the same key, so
Remove and Resolve for one pair address the other pair's entry and a
Create for one replaces the other's; the encoding is injective when the
userIds contain no colon; and ListForUser reports as the dashboard id the
segment of the key between the first and second colon. -/
theorem key_encoding_collisions :
    mkKey "a:b" "c" = mkKey "a" "b:c"
    ∧ ("a:b", "c") ≠ (("a" : String), ("b:c" : String))
    ∧ (∀ u1 d1 u2 d2 : String, ':' ∉ u1.data → ':' ∉ u2.data →
        mkKey u1 d1 = mkKey u2 d2 → u1 = u2 ∧ d1 = d2)
    ∧ (∀ s : Sys, resolve s "a:b" "c" = resolve s "a" "b:c")
    ∧ (∀ (ok : Bool) (s : Sys), remove ok s "a:b" "c" = remove ok s "a" "b:c")
    ∧ (∀ u d : String, ':' ∉ u.data → ':' ∉ d.data → seg1 (mkKey u d) = d)
    ∧ seg1 (mkKey "a" "b:c") = "b"
    ∧ pyDictGet (create noOsBusy true true sAB "a" "b:c" "y" none).2.reg
        (mkKey "a:b" "c") =
        some { port := 8051, userId := "a", dashboardId := "b:c",
               handle := 1, backendConfirmed := true } ∧
      list_dashboards (create noOsBusy true true sAB "a" "b:c" "y" none).2
        "a" = [("b", 8051)] :=
  ⟨rfl, by decide, mkKey_inj_of_no_colon, fun _ => rfl, fun _ _ => rfl,
    seg1_mkKey, by decide, by decide, by decide⟩

/-- Witness for C10, applying the injectivity part at colon-free ids. -/
theorem key_encoding_collisions_witness :
    ("x" : String) = "x" ∧ ("y" : String) = "y" ∧
      seg1 (mkKey "p" "q") = "q" :=
  ⟨(key_encoding_collisions.2.2.1 "x" "y" "x" "y" (by decide) (by decide)
      rfl).1,
    (key_encoding_collisions.2.2.1 "x" "y" "x" "y" (by decide) (by decide)
      rfl).2,
    key_encoding_collisions.2.2.2.2.2.1 "p" "q" (by decide) (by decide)⟩

end CoreServer
